import Mathlib

/-!
Shallow embedding of `downloader.py` (MediaFire batch downloader) and
verification of its specification claims.

Strings are modelled as `List Char`; Python `str.strip()` becomes dropping
whitespace from both ends; Python `str.lower()` becomes `Char.toLower` mapped
over the characters.  The browser is modelled as an oracle environment: a
function from selector to the element `find_element` would return, a page
text, a navigation outcome, and a click outcome.  Each Python function of the
source is translated to a Lean definition of the same name.
-/

namespace MFD

/-- Strings of the program are modelled as lists of characters. -/
abbrev Str := List Char

/-- Python `str.strip()`: remove leading and trailing whitespace
(`line.strip()` in `downloader.py`, lines 246, 256-258, 318). -/
def strip (s : Str) : Str :=
  ((s.dropWhile Char.isWhitespace).reverse.dropWhile Char.isWhitespace).reverse

/-- Python `str.lower()` applied characterwise. -/
def lowerStr (s : Str) : Str := s.map Char.toLower

/-- `INVALID_PAGE_TEXTS` from `downloader.py` lines 65-71. -/
def INVALID_PAGE_TEXTS : List Str :=
  [ "invalid or deleted".data
  , "file not found".data
  , "this file has been deleted".data
  , "unavailable".data
  , "error occurred".data ]

/-- `is_page_invalid` (line 147-148): `any(p in driver.page_source.lower()
for p in INVALID_PAGE_TEXTS)`, with the page source passed explicitly. -/
def is_page_invalid (page : Str) : Bool :=
  INVALID_PAGE_TEXTS.any (fun p => decide (p <:+: lowerStr page))

/-- The spec phrase: the phrase occurs case-insensitively as a substring of
the page text. -/
abbrev occursCI (p page : Str) : Prop := lowerStr p <:+: lowerStr page

/-- `DOWNLOAD_BUTTON_SELECTORS` from `downloader.py` lines 57-63. -/
def DOWNLOAD_BUTTON_SELECTORS : List Str :=
  [ "a#downloadButton".data
  , "a[id=\x27downloadButton\x27]".data
  , "a.download_link".data
  , "div.download_link a".data
  , "a[aria-label*=\x27Download\x27]".data ]

/-- A DOM element as far as the program observes it: an identity and the
result of `is_displayed()`. -/
structure Elem where
  id : Nat
  displayed : Bool
deriving DecidableEq

/-- The loop body of `find_download_button` (lines 152-159), recursing over
the remaining selector list; `query` models `driver.find_element`, returning
`none` when `NoSuchElementException` is raised. -/
def findFrom (query : Str → Option Elem) : List Str → Option Elem
  | [] => none
  | sel :: rest =>
    match query sel with
    | some btn => if btn.displayed then some btn else findFrom query rest
    | none => findFrom query rest

/-- `find_download_button` (lines 151-159): try the selectors in order,
return the first element found that is displayed, else `none`. -/
def find_download_button (query : Str → Option Elem) : Option Elem :=
  findFrom query DOWNLOAD_BUTTON_SELECTORS

/-- Outcome of `driver.get(url)` in `process_link` (lines 176-181). -/
inductive NavOutcome where
  | ok : NavOutcome
  | timeout : NavOutcome
  | webdriverError : Str → NavOutcome

/-- The browser environment one link sees: navigation outcome, the page
source after load, the element each selector resolves to, and whether the
click raises (`some msg`) or succeeds (`none`). -/
structure PageEnv where
  nav : NavOutcome
  pageText : Str
  query : Str → Option Elem
  clickError : Option Str

/-- Instrumentation of `process_link`: whether the explicit
`WebDriverWait` was reached, how many times `find_download_button` was
invoked, and whether `btn.click()` was attempted. -/
structure Trace where
  waitInvoked : Bool
  searchCount : Nat
  clickAttempted : Bool
deriving DecidableEq

/-- `process_link` (lines 165-217), returning the `(success, reason)` pair
together with the instrumentation trace.  Navigation failure, an invalid
page, a missing button and a click error each return immediately with the
reason string of the source. -/
def process_link (env : PageEnv) : (Bool × Str) × Trace :=
  match env.nav with
  | .timeout => ((false, "Page load timed out".data), ⟨false, 0, false⟩)
  | .webdriverError msg =>
      ((false, "WebDriver error: ".data ++ msg), ⟨false, 0, false⟩)
  | .ok =>
    if is_page_invalid env.pageText then
      ((false, "MediaFire reports file as invalid or deleted".data),
        ⟨false, 0, false⟩)
    else
      match find_download_button env.query with
      | none =>
          ((false, "Download button not found on page".data), ⟨true, 1, false⟩)
      | some _ =>
        match env.clickError with
        | some exc =>
            ((false, "Could not click download button: ".data ++ exc),
              ⟨true, 1, true⟩)
        | none => ((true, "OK".data), ⟨true, 1, true⟩)

/-- Result of `close_popup_tabs` (lines 128-141): which handles were closed,
which remain open, and whether focus was restored to the keep handle. -/
structure ReapResult where
  closed : List Nat
  stillOpen : List Nat
  focusRestored : Bool
deriving DecidableEq

/-- The `for handle in list(driver.window_handles)` loop of
`close_popup_tabs`: a handle equal to `keep_handle` is skipped; otherwise
`driver.close()` is attempted, and a raised `WebDriverException`
(`closeFails h = true`) is swallowed, leaving that tab open and continuing
with the rest. Returns `(closed, stillOpen)`. -/
def reapGo (keep : Nat) (closeFails : Nat → Bool) : List Nat → List Nat × List Nat
  | [] => ([], [])
  | h :: rest =>
    let r := reapGo keep closeFails rest
    if h = keep then (r.1, h :: r.2)
    else if closeFails h then (r.1, h :: r.2)
    else (h :: r.1, r.2)

/-- `close_popup_tabs` (lines 128-141): run the closing loop over every open
handle, then try `driver.switch_to.window(keep_handle)`, swallowing a
failure (`focusFails = true`). The function is total: it never raises. -/
def close_popup_tabs (handles : List Nat) (keep : Nat)
    (closeFails : Nat → Bool) (focusFails : Bool) : ReapResult :=
  let r := reapGo keep closeFails handles
  ⟨r.1, r.2, !focusFails⟩

/-- `links = [(i + 1, line.strip()) for i, line in enumerate(raw_lines) if
line.strip()]` (lines 255-259), written as a recursion carrying the 1-based
line number `n`. -/
def parseLinksFrom (n : Nat) : List Str → List (Nat × Str)
  | [] => []
  | line :: rest =>
    if strip line = [] then parseLinksFrom (n + 1) rest
    else (n, strip line) :: parseLinksFrom (n + 1) rest

/-- The link list built by `main` from the raw lines of the input file. -/
def parseLinks (raw : List Str) : List (Nat × Str) := parseLinksFrom 1 raw

/-- The number of non-blank lines of the file (a line is blank when it is
empty after stripping). -/
def nonBlankCount (raw : List Str) : Nat :=
  raw.countP (fun line => !(strip line).isEmpty)

/-- The accumulators of the per-link loop of `main` (lines 279-280):
`success_count` and `failed_links`. -/
structure LoopState where
  success_count : Nat
  failed_links : List (Nat × Str × Str)
deriving DecidableEq

/-- The per-link loop of `main` (lines 283-302) over the links actually
processed: `env` yields the `(success, reason)` pair `process_link` returns
for a given link record; a success increments `success_count`, a failure
appends `(line_no, url, reason)` to `failed_links`. -/
def runLoop (env : Nat × Str → Bool × Str) : List (Nat × Str) → LoopState
  | [] => ⟨0, []⟩
  | l :: rest =>
    let r := env l
    let st := runLoop env rest
    if r.1 then ⟨st.success_count + 1, st.failed_links⟩
    else ⟨st.success_count, (l.1, l.2, r.2) :: st.failed_links⟩

/-- What `main` does before and at the moment of launching the browser
(lines 247-277): exit code, whether `build_driver()` was reached, and
whether the no-links warning was emitted. -/
structure RunResult where
  exitCode : Nat
  browserLaunched : Bool
  warned : Bool
deriving DecidableEq

/-- The entry checks of `main` (lines 247-277): `os.path.isfile` failing
exits with code 1; `total == 0` warns and exits with code 0 before
`build_driver()`; otherwise the browser is launched and `main` finishes
with exit code 0. -/
def mainRun (isfile : Bool) (raw : List Str) : RunResult :=
  if !isfile then ⟨1, false, false⟩
  else if (parseLinks raw).length = 0 then ⟨0, false, true⟩
  else ⟨0, true, false⟩

/-- The three-way branch of the shutdown prompt loop of `main`
(lines 317-324), on the input already stripped and lowercased. -/
inductive PromptAction where
  | close : PromptAction
  | waitMsg : PromptAction
  | helpMsg : PromptAction
deriving DecidableEq

/-- `input(...).strip().lower()` at line 318. -/
def normalize (s : Str) : Str := lowerStr (strip s)

/-- One iteration of the shutdown prompt loop (lines 317-324): `"y"`
breaks the loop; `"n"` and the empty string print the waiting message and
re-prompt; anything else prints the help message and re-prompts. -/
def promptStep (answer : Str) : PromptAction :=
  let a := normalize answer
  if a = "y".data then .close
  else if a = "n".data ∨ a = [] then .waitMsg
  else .helpMsg

/-- The `while True` shutdown prompt loop of `main` (lines 317-326), fed a
finite stream of console inputs.  Returns `some i` when the loop breaks
(and `driver.quit()` runs) after consuming input `i` (0-based), `none`
when every supplied input leaves it re-prompting. -/
def promptLoop : List Str → Option Nat
  | [] => none
  | a :: rest =>
    if promptStep a = .close then some 0
    else (promptLoop rest).map (· + 1)


/-! ## Helper lemmas -/

/-- `strip` is the left `dropWhile` followed by the right one. -/
theorem strip_eq (s : Str) :
    strip s = List.rdropWhile Char.isWhitespace (s.dropWhile Char.isWhitespace) := rfl

/-- Stripping an already stripped string changes nothing. -/
theorem strip_idem (s : Str) : strip (strip s) = strip s := by
  rw [strip_eq, strip_eq s]
  have h1 : List.dropWhile Char.isWhitespace
      (List.rdropWhile Char.isWhitespace (s.dropWhile Char.isWhitespace)) =
      List.rdropWhile Char.isWhitespace (s.dropWhile Char.isWhitespace) := by
    rw [List.dropWhile_eq_self_iff]
    intro hl
    have hpre := List.rdropWhile_prefix Char.isWhitespace (s.dropWhile Char.isWhitespace)
    have hlen : 0 < (s.dropWhile Char.isWhitespace).length :=
      lt_of_lt_of_le hl hpre.length_le
    have := List.dropWhile_get_zero_not Char.isWhitespace s hlen
    simpa [List.get_eq_getElem, hpre.getElem hl] using this
  rw [h1, List.rdropWhile_idempotent]

/-- A line of whitespace only strips to the empty string. -/
theorem strip_eq_nil_of_all_ws (l : Str) (h : ∀ c ∈ l, c.isWhitespace = true) :
    strip l = [] := by
  rw [strip_eq, List.dropWhile_eq_nil_iff.mpr h]
  simp [List.rdropWhile]

/-- Membership in the parsed link list: record `(m, u)` is present exactly
when line `m - n` (0-based) of the remaining raw lines strips to the
non-empty `u`. -/
theorem mem_parseLinksFrom (raw : List Str) : ∀ (n m : Nat) (u : Str),
    (m, u) ∈ parseLinksFrom n raw ↔
      ∃ i line, raw[i]? = some line ∧ m = n + i ∧ u = strip line ∧ strip line ≠ [] := by
  induction raw with
  | nil => simp [parseLinksFrom]
  | cons line rest ih =>
    intro n m u
    by_cases hb : strip line = []
    · rw [parseLinksFrom, if_pos hb, ih (n + 1)]
      constructor
      · rintro ⟨i, l, hl, hm, hu, hne⟩
        exact ⟨i + 1, l, by simpa using hl, by omega, hu, hne⟩
      · rintro ⟨i, l, hl, hm, hu, hne⟩
        match i with
        | 0 =>
          rw [List.getElem?_cons_zero] at hl
          cases hl; exact absurd hb hne
        | j + 1 =>
          rw [List.getElem?_cons_succ] at hl
          exact ⟨j, l, hl, by omega, hu, hne⟩
    · rw [parseLinksFrom, if_neg hb]
      constructor
      · intro hmem
        rcases List.mem_cons.mp hmem with heq | hmem2
        · cases heq
          exact ⟨0, line, by simp, by omega, rfl, hb⟩
        · rcases (ih (n + 1) m u).mp hmem2 with ⟨i, l, hl, hm, hu, hne⟩
          exact ⟨i + 1, l, by simpa using hl, by omega, hu, hne⟩
      · rintro ⟨i, l, hl, hm, hu, hne⟩
        match i with
        | 0 =>
          rw [List.getElem?_cons_zero] at hl
          cases hl
          subst hu; subst hm
          simp [parseLinksFrom]
        | j + 1 =>
          rw [List.getElem?_cons_succ] at hl
          exact List.mem_cons.mpr (Or.inr ((ih (n + 1) m u).mpr ⟨j, l, hl, by omega, hu, hne⟩))

/-- The parsed link list has one entry per non-blank line. -/
theorem parseLinksFrom_length (raw : List Str) : ∀ n,
    (parseLinksFrom n raw).length = nonBlankCount raw := by
  induction raw with
  | nil => intro n; rfl
  | cons line rest ih =>
    intro n
    by_cases hb : strip line = []
    · rw [parseLinksFrom, if_pos hb]
      simp [nonBlankCount, List.countP_cons, hb, ih]
    · rw [parseLinksFrom, if_neg hb]
      have : (strip line).isEmpty = false := by
        cases h : strip line with
        | nil => exact absurd h hb
        | cons a t => rfl
      simp [nonBlankCount, List.countP_cons, this, ih]

/-- The loop accumulators always account for every processed link. -/
theorem runLoop_total (env : Nat × Str → Bool × Str) (links : List (Nat × Str)) :
    (runLoop env links).success_count + (runLoop env links).failed_links.length
      = links.length := by
  induction links with
  | nil => rfl
  | cons l rest ih =>
    rw [runLoop]
    by_cases h : (env l).1
    · simp only [h, if_true]
      simpa [Nat.add_assoc, Nat.add_comm 1] using congrArg (· + 1) ih
    · simp only [h]
      simp only [Bool.false_eq_true, if_false, List.length_cons]
      omega

/-- The selector loop yields `none` exactly when no selector resolves to a
displayed element. -/
theorem findFrom_eq_none_iff (query : Str → Option Elem) (sels : List Str) :
    findFrom query sels = none ↔
      ∀ sel ∈ sels, ∀ e, query sel = some e → e.displayed = false := by
  induction sels with
  | nil => simp [findFrom]
  | cons sel rest ih =>
    rw [findFrom]
    cases hq : query sel with
    | none =>
      dsimp only
      rw [ih]
      constructor
      · intro h s hs e he
        rcases List.mem_cons.mp hs with rfl | hs2
        · rw [hq] at he; cases he
        · exact h s hs2 e he
      · intro h s hs e he
        exact h s (List.mem_cons_of_mem _ hs) e he
    | some btn =>
      dsimp only
      by_cases hd : btn.displayed = true
      · rw [if_pos hd]
        constructor
        · intro h; cases h
        · intro h
          have := h sel (List.mem_cons_self _ _) btn hq
          rw [hd] at this; cases this
      · rw [if_neg hd, ih]
        have hdf : btn.displayed = false := Bool.eq_false_iff.mpr (fun hc => hd hc)
        constructor
        · intro h s hs e he
          rcases List.mem_cons.mp hs with rfl | hs2
          · rw [hq] at he; cases he; exact hdf
          · exact h s hs2 e he
        · intro h s hs e he
          exact h s (List.mem_cons_of_mem _ hs) e he

/-- When the selector loop yields an element it is the one of the first
selector that resolved to a displayed element. -/
theorem findFrom_eq_some (query : Str → Option Elem) :
    ∀ (sels : List Str) (e : Elem), findFrom query sels = some e →
    ∃ i, ∃ h : i < sels.length,
      query (sels.get ⟨i, h⟩) = some e ∧ e.displayed = true ∧
      ∀ j, ∀ hj : j < i, ∀ e2,
        query (sels.get ⟨j, Nat.lt_trans hj h⟩) = some e2 → e2.displayed = false := by
  intro sels
  induction sels with
  | nil => intro e h; cases h
  | cons sel rest ih =>
    intro e h
    rw [findFrom] at h
    cases hq : query sel with
    | none =>
      rw [hq] at h
      dsimp only at h
      rcases ih e h with ⟨i, hilt, hqe, hde, hmin⟩
      refine ⟨i + 1, Nat.succ_lt_succ hilt, hqe, hde, ?_⟩
      intro j hj e2 he2
      match j with
      | 0 =>
        have he2 : query sel = some e2 := he2
        rw [hq] at he2; cases he2
      | k + 1 =>
        exact hmin k (Nat.lt_of_succ_lt_succ hj) e2 he2
    | some btn =>
      rw [hq] at h
      dsimp only at h
      by_cases hd : btn.displayed = true
      · rw [if_pos hd] at h
        cases h
        exact ⟨0, Nat.succ_pos _, hq, hd,
          fun j hj => absurd hj (Nat.not_lt_zero j)⟩
      · rw [if_neg hd] at h
        rcases ih e h with ⟨i, hilt, hqe, hde, hmin⟩
        refine ⟨i + 1, Nat.succ_lt_succ hilt, hqe, hde, ?_⟩
        intro j hj e2 he2
        match j with
        | 0 =>
          have he2 : query sel = some e2 := he2
          rw [hq] at he2
          cases he2
          exact Bool.eq_false_iff.mpr (fun hc => hd hc)
        | k + 1 =>
          exact hmin k (Nat.lt_of_succ_lt_succ hj) e2 he2

/-- The prompt branch breaks the loop exactly on the normalized input "y". -/
theorem promptStep_eq_close_iff (a : Str) :
    promptStep a = .close ↔ normalize a = "y".data := by
  by_cases h : normalize a = "y".data
  · simp [promptStep, h]
  · by_cases h2 : normalize a = "n".data ∨ normalize a = []
    · simp [promptStep, h, h2]
    · simp [promptStep, h, h2]

/-- The shutdown loop consumes every input without closing exactly when no
input normalizes to "y". -/
theorem promptLoop_eq_none_iff (inputs : List Str) :
    promptLoop inputs = none ↔ ∀ a ∈ inputs, normalize a ≠ "y".data := by
  induction inputs with
  | nil => simp [promptLoop]
  | cons a rest ih =>
    rw [promptLoop]
    by_cases hc : promptStep a = .close
    · rw [if_pos hc]
      simp only [List.mem_cons]
      constructor
      · intro h; cases h
      · intro h
        exact absurd ((promptStep_eq_close_iff a).mp hc) (h a (Or.inl rfl))
    · rw [if_neg hc]
      rw [Option.map_eq_none', ih]
      constructor
      · intro h s hs
        rcases List.mem_cons.mp hs with rfl | hs2
        · exact fun hy => hc ((promptStep_eq_close_iff s).mpr hy)
        · exact h s hs2
      · intro h s hs
        exact h s (List.mem_cons_of_mem _ hs)

/-- When the shutdown loop closes after input `i`, that input normalized to
"y" and no earlier input did. -/
theorem promptLoop_eq_some (inputs : List Str) :
    ∀ i, promptLoop inputs = some i →
    ∃ h : i < inputs.length,
      normalize (inputs.get ⟨i, h⟩) = "y".data ∧
      ∀ j, ∀ hj : j < i, normalize (inputs.get ⟨j, Nat.lt_trans hj h⟩) ≠ "y".data := by
  induction inputs with
  | nil => intro i h; cases h
  | cons a rest ih =>
    intro i h
    rw [promptLoop] at h
    by_cases hc : promptStep a = .close
    · rw [if_pos hc] at h
      cases h
      exact ⟨Nat.succ_pos _, (promptStep_eq_close_iff a).mp hc,
        fun j hj => absurd hj (Nat.not_lt_zero j)⟩
    · rw [if_neg hc] at h
      rcases Option.map_eq_some'.mp h with ⟨i0, hp, rfl⟩
      rcases ih i0 hp with ⟨h0, hy, hmin⟩
      refine ⟨Nat.succ_lt_succ h0, hy, ?_⟩
      intro j hj
      match j with
      | 0 =>
        exact fun hy2 => hc ((promptStep_eq_close_iff a).mpr hy2)
      | k + 1 =>
        exact hmin k (Nat.lt_of_succ_lt_succ hj)

/-- Each phrase of `INVALID_PAGE_TEXTS` is already lowercase. -/
theorem invalid_texts_lower : ∀ p ∈ INVALID_PAGE_TEXTS, lowerStr p = p := by decide

/-- The reap loop closes exactly the non-keep handles whose close succeeded
and leaves the rest open. -/
theorem reapGo_eq (keep : Nat) (closeFails : Nat → Bool) : ∀ handles : List Nat,
    reapGo keep closeFails handles =
      (handles.filter (fun h => !(h == keep) && !closeFails h),
       handles.filter (fun h => (h == keep) || closeFails h)) := by
  intro handles
  induction handles with
  | nil => rfl
  | cons h rest ih =>
    rw [reapGo, ih]
    by_cases h1 : h = keep
    · subst h1
      simp [List.filter_cons]
    · by_cases h2 : closeFails h = true
      · simp [List.filter_cons, h1, h2]
      · simp [List.filter_cons, h1, h2]


/-! ## Claim theorems -/

/-- Claim C1 (counterexample): the data-model invariant as stated — outcome
count equals the non-blank line count even when the run is interrupted —
fails for a two-link file interrupted after one processed link. -/
theorem C1_counterexample :
    (runLoop (fun _ => (true, "OK".data))
        ((parseLinks ["a".data, "b".data]).take 1)).success_count
      + (runLoop (fun _ => (true, "OK".data))
        ((parseLinks ["a".data, "b".data]).take 1)).failed_links.length
      ≠ nonBlankCount ["a".data, "b".data] := by decide

/-- Claim C1 (amended): the number of Outcome Records — success count plus
failed-link records — equals the number of links processed (the first `k`
links when the loop is interrupted there), and equals the number of
non-blank lines of the file when the loop completes. -/
theorem C1_outcome_count (env : Nat × Str → Bool × Str) (raw : List Str) (k : Nat) :
    (runLoop env ((parseLinks raw).take k)).success_count
        + (runLoop env ((parseLinks raw).take k)).failed_links.length
      = ((parseLinks raw).take k).length
    ∧ (runLoop env (parseLinks raw)).success_count
        + (runLoop env (parseLinks raw)).failed_links.length
      = nonBlankCount raw :=
  ⟨runLoop_total env _, by
    rw [runLoop_total env (parseLinks raw)]
    exact parseLinksFrom_length raw 1⟩

/-- Claim C2 (counterexample): on an invalid page the reason string returned
by `process_link` is not "file reported invalid or deleted". -/
theorem C2_counterexample :
    (process_link ⟨.ok, "this file has been deleted".data, fun _ => none, none⟩).1
      ≠ (false, "file reported invalid or deleted".data) := by decide

/-- Claim C2 (amended): when navigation succeeds and the page is flagged
invalid, `process_link` returns failure with reason "MediaFire reports file
as invalid or deleted" and performs no further action: the download-control
wait is not reached, the selector search is invoked zero times, and no
click is attempted. -/
theorem C2_invalid_page_short_circuits (env : PageEnv) (hnav : env.nav = .ok)
    (hinv : is_page_invalid env.pageText = true) :
    process_link env =
      ((false, "MediaFire reports file as invalid or deleted".data),
        ⟨false, 0, false⟩) := by
  rcases env with ⟨nav, page, q, ce⟩
  dsimp only at hnav hinv
  subst hnav
  simp [process_link, hinv]

/-- Claim C2 witness: the amended theorem applied to a concrete invalid
page. -/
theorem C2_witness :
    process_link ⟨.ok, "unavailable".data, fun _ => none, none⟩ =
      ((false, "MediaFire reports file as invalid or deleted".data),
        ⟨false, 0, false⟩) :=
  C2_invalid_page_short_circuits
    ⟨.ok, "unavailable".data, fun _ => none, none⟩ rfl (by decide)

/-- Claim C3 (counterexample): when no selector resolves, the reason string
returned by `process_link` is not "download control not found". -/
theorem C3_counterexample :
    (process_link ⟨.ok, "a plain page".data, fun _ => none, none⟩).1
      ≠ (false, "download control not found".data) := by decide

/-- Claim C3 (amended): when navigation succeeds, the page is not flagged
invalid, and no configured selector resolves to a visible element,
`process_link` returns failure with reason "Download button not found on
page" and no click is attempted. -/
theorem C3_no_control_no_click (env : PageEnv) (hnav : env.nav = .ok)
    (hinv : is_page_invalid env.pageText = false)
    (hbtn : find_download_button env.query = none) :
    process_link env =
      ((false, "Download button not found on page".data), ⟨true, 1, false⟩) := by
  rcases env with ⟨nav, page, q, ce⟩
  dsimp only at hnav hinv hbtn
  subst hnav
  simp [process_link, hinv, hbtn]

/-- Claim C3 witness: the amended theorem applied to a concrete page on
which every selector fails. -/
theorem C3_witness :
    process_link ⟨.ok, "a plain page".data, fun _ => none, none⟩ =
      ((false, "Download button not found on page".data), ⟨true, 1, false⟩) :=
  C3_no_control_no_click
    ⟨.ok, "a plain page".data, fun _ => none, none⟩ rfl (by decide) rfl

/-- Claim C4: the shutdown prompt loop exits only on a recognized
affirmative input ("y" after stripping and lowercasing); every other input,
the empty string included, re-prompts without closing, and the session is
closed only after such an affirmative input. -/
theorem C4_shutdown_prompt (inputs : List Str) :
    (promptLoop inputs = none ↔ ∀ a ∈ inputs, normalize a ≠ "y".data) ∧
    (∀ i, promptLoop inputs = some i →
      ∃ h : i < inputs.length,
        normalize (inputs.get ⟨i, h⟩) = "y".data ∧
        ∀ j, ∀ hj : j < i,
          normalize (inputs.get ⟨j, Nat.lt_trans hj h⟩) ≠ "y".data) :=
  ⟨promptLoop_eq_none_iff inputs, promptLoop_eq_some inputs⟩

/-- Claim C4 witness: a stream of non-affirmative inputs never closes the
session. -/
theorem C4_witness : promptLoop ["maybe".data, "".data, "N".data] = none :=
  (C4_shutdown_prompt ["maybe".data, "".data, "N".data]).1.mpr (by decide)

/-- Claim C5: `find_download_button` tries the fixed ordered selector list
and returns the result of the first selector resolving to a displayed
element; it returns `none` iff no selector resolves to a displayed element,
and any returned element is the highest-priority visible match. -/
theorem C5_first_visible_match (query : Str → Option Elem) :
    (find_download_button query = none ↔
      ∀ sel ∈ DOWNLOAD_BUTTON_SELECTORS, ∀ e, query sel = some e →
        e.displayed = false) ∧
    (∀ e, find_download_button query = some e →
      ∃ i, ∃ h : i < DOWNLOAD_BUTTON_SELECTORS.length,
        query (DOWNLOAD_BUTTON_SELECTORS.get ⟨i, h⟩) = some e ∧
        e.displayed = true ∧
        ∀ j, ∀ hj : j < i, ∀ e2,
          query (DOWNLOAD_BUTTON_SELECTORS.get ⟨j, Nat.lt_trans hj h⟩) = some e2 →
            e2.displayed = false) :=
  ⟨findFrom_eq_none_iff query DOWNLOAD_BUTTON_SELECTORS,
   fun e h => findFrom_eq_some query DOWNLOAD_BUTTON_SELECTORS e h⟩

/-- Claim C5 witness: when every selector raises, the search returns
`none`. -/
theorem C5_witness : find_download_button (fun _ => none) = none :=
  (C5_first_visible_match (fun _ => none)).1.mpr (fun _ _ e he => by cases he)

/-- Claim C6: `is_page_invalid` returns true iff one of the five fixed
phrases occurs case-insensitively as a substring of the page text. -/
theorem C6_invalid_page_iff (page : Str) :
    is_page_invalid page = true ↔ ∃ p ∈ INVALID_PAGE_TEXTS, occursCI p page := by
  rw [is_page_invalid, List.any_eq_true]
  constructor
  · rintro ⟨p, hp, hdec⟩
    refine ⟨p, hp, ?_⟩
    show lowerStr p <:+: lowerStr page
    rw [invalid_texts_lower p hp]
    exact of_decide_eq_true hdec
  · rintro ⟨p, hp, hocc⟩
    refine ⟨p, hp, decide_eq_true ?_⟩
    have hocc2 : lowerStr p <:+: lowerStr page := hocc
    rw [invalid_texts_lower p hp] at hocc2
    exact hocc2

/-- Claim C6 witness: a page containing "Unavailable" in mixed case is
flagged invalid. -/
theorem C6_witness : is_page_invalid ("Server Unavailable".data) = true :=
  (C6_invalid_page_iff ("Server Unavailable".data)).mpr
    ⟨"unavailable".data, by decide, by decide⟩

/-- Claim C7: a Link Record `(m, u)` exists exactly when line `m` of the
file (1-based, counting blank lines) strips to the non-empty URL `u`; in
particular blank lines contribute no Link Record. -/
theorem C7_line_numbering (raw : List Str) (m : Nat) (u : Str) :
    (m, u) ∈ parseLinks raw ↔
      ∃ i line, raw[i]? = some line ∧ m = i + 1 ∧ u = strip line ∧
        strip line ≠ [] := by
  rw [parseLinks, mem_parseLinksFrom]
  constructor
  · rintro ⟨i, l, h1, h2, h3, h4⟩
    exact ⟨i, l, h1, by omega, h3, h4⟩
  · rintro ⟨i, l, h1, h2, h3, h4⟩
    exact ⟨i, l, h1, by omega, h3, h4⟩

/-- Claim C7 witness: in a file whose first line is blank, the second line
gets line number 2. -/
theorem C7_witness : (2, "ab".data) ∈ parseLinks ["".data, " ab ".data] :=
  (C7_line_numbering ["".data, " ab ".data] 2 "ab".data).mpr
    ⟨1, " ab ".data, by decide, by decide, by decide, by decide⟩

/-- Claim C8: the run exits with code 1 exactly when the input path is not
an existing file, with code 0 otherwise; a file with zero non-blank lines
exits 0 with the warning and without launching the browser. -/
theorem C8_exit_codes (isfile : Bool) (raw : List Str) :
    ((mainRun isfile raw).exitCode = 1 ↔ isfile = false) ∧
    (isfile = true → (mainRun isfile raw).exitCode = 0) ∧
    (isfile = true → (parseLinks raw).length = 0 →
      mainRun isfile raw = ⟨0, false, true⟩) := by
  cases isfile with
  | false =>
    refine ⟨by simp [mainRun], ?_, ?_⟩
    · intro h; cases h
    · intro h; cases h
  | true =>
    by_cases h0 : (parseLinks raw).length = 0
    · exact ⟨by simp [mainRun, h0], fun _ => by simp [mainRun, h0],
        fun _ _ => by simp [mainRun, h0]⟩
    · exact ⟨by simp [mainRun, h0], fun _ => by simp [mainRun, h0],
        fun _ hh => absurd hh h0⟩

/-- Claim C8 witness: a missing file exits 1; an existing empty file warns
and exits 0 without launching the browser. -/
theorem C8_witness :
    (mainRun false ["x".data]).exitCode = 1 ∧ mainRun true [] = ⟨0, false, true⟩ :=
  ⟨(C8_exit_codes false ["x".data]).1.mpr rfl, (C8_exit_codes true []).2.2 rfl rfl⟩

/-- Claim C9: `close_popup_tabs` closes exactly the non-keep handles whose
close does not fail — an individual failure is swallowed and the remaining
tabs are still closed — never closes the keep handle, and restores focus
exactly when the focus switch does not fail; the function is total, so it
never raises. -/
theorem C9_reap (handles : List Nat) (keep : Nat) (closeFails : Nat → Bool)
    (focusFails : Bool) :
    (close_popup_tabs handles keep closeFails focusFails).closed
        = handles.filter (fun h => !(h == keep) && !closeFails h)
    ∧ (close_popup_tabs handles keep closeFails focusFails).stillOpen
        = handles.filter (fun h => (h == keep) || closeFails h)
    ∧ keep ∉ (close_popup_tabs handles keep closeFails focusFails).closed
    ∧ (close_popup_tabs handles keep closeFails focusFails).focusRestored
        = !focusFails := by
  have h := reapGo_eq keep closeFails handles
  refine ⟨?_, ?_, ?_, rfl⟩
  · show (reapGo keep closeFails handles).1 = _
    rw [h]
  · show (reapGo keep closeFails handles).2 = _
    rw [h]
  · show keep ∉ (reapGo keep closeFails handles).1
    rw [h]
    intro hmem
    have hp := List.of_mem_filter hmem
    simp at hp

/-- Claim C9 witness: with handle 3 failing to close, handle 1 is still
closed and the keep handle 2 is never closed. -/
theorem C9_witness :
    2 ∉ (close_popup_tabs [1, 2, 3] 2 (fun h => h == 3) false).closed :=
  (C9_reap [1, 2, 3] 2 (fun h => h == 3) false).2.2.1

/-- Claim C10: whitespace-only lines produce no Link Record, and every
stored URL is the raw line with surrounding whitespace removed, so it
strips to itself and is non-empty. -/
theorem C10_stripped_urls (raw : List Str) (m i : Nat) (u line : Str) :
    ((m, u) ∈ parseLinks raw → strip u = u ∧ u.isEmpty = false) ∧
    (raw[i]? = some line → (∀ c ∈ line, c.isWhitespace = true) →
      (i + 1, u) ∉ parseLinks raw) := by
  constructor
  · intro hmem
    rcases (mem_parseLinksFrom raw 1 m u).mp hmem with ⟨j, l, hl, hm, hu, hne⟩
    subst hu
    refine ⟨strip_idem l, ?_⟩
    cases h : strip l with
    | nil => exact absurd h hne
    | cons a t => rfl
  · intro hline hws hmem
    rcases (mem_parseLinksFrom raw 1 (i + 1) u).mp hmem with ⟨j, l, hl, hm, hu, hne⟩
    have hj : j = i := by omega
    subst hj
    rw [hline] at hl
    have hll := Option.some.inj hl
    subst hll
    exact hne (strip_eq_nil_of_all_ws line hws)

/-- Claim C10 witness: a stored URL strips to itself and is non-empty. -/
theorem C10_witness : strip ("ab".data) = "ab".data ∧ ("ab".data).isEmpty = false :=
  (C10_stripped_urls [" ab".data] 1 0 "ab".data " ab".data).1 (by decide)

end MFD
